import Mathlib

/-!
Verification of the layered configuration subsystem of ggshield
(src/ggshield/core/config/user_config.py), shallowly embedded in Lean 4.

YAML documents are modelled as ordered association lists of string keys to
YAML values (mirroring Python dict insertion order).  Python sets are
modelled as Lean lists (marshmallow dumps them as YAML sequences; ordering
is irrelevant to the properties proved here).  File system access performed
by UserConfig.load is modelled by an explicit environment record.

Functions that live in modules of the repository that are not part of the
shown slice (ggshield/core/config/utils.py, ggshield/core/utils.py and the
marshmallow-generated schemas) are modelled from the specification; their
doc comments say so explicitly.
-/

/-- A YAML value: string, integer, boolean, null, sequence or mapping.
Mappings are ordered association lists, as Python dicts are. -/
inductive YVal where
  | s (v : String)
  | i (v : Int)
  | b (v : Bool)
  | null
  | list (items : List YVal)
  | dict (entries : List (String × YVal))

mutual

/-- Structural equality test on YAML values. -/
def YVal.beq : YVal → YVal → Bool
  | .s x, .s y => x == y
  | .i x, .i y => x == y
  | .b x, .b y => x == y
  | .null, .null => true
  | .list x, .list y => YVal.beqList x y
  | .dict x, .dict y => YVal.beqDict x y
  | _, _ => false

/-- Structural equality test on YAML sequences. -/
def YVal.beqList : List YVal → List YVal → Bool
  | [], [] => true
  | x :: xs, y :: ys => YVal.beq x y && YVal.beqList xs ys
  | _, _ => false

/-- Structural equality test on YAML mapping entry lists. -/
def YVal.beqDict : List (String × YVal) → List (String × YVal) → Bool
  | [], [] => true
  | (k, x) :: xs, (k', y) :: ys => k == k' && YVal.beq x y && YVal.beqDict xs ys
  | _, _ => false

end

mutual

theorem YVal.beq_refl : ∀ x : YVal, YVal.beq x x = true
  | .s x => by simp [YVal.beq]
  | .i x => by simp [YVal.beq]
  | .b x => by simp [YVal.beq]
  | .null => by simp [YVal.beq]
  | .list x => by simp only [YVal.beq]; exact YVal.beqList_refl x
  | .dict x => by simp only [YVal.beq]; exact YVal.beqDict_refl x

theorem YVal.beqList_refl : ∀ xs : List YVal, YVal.beqList xs xs = true
  | [] => rfl
  | x :: xs => by
    simp only [YVal.beqList, Bool.and_eq_true]
    exact ⟨YVal.beq_refl x, YVal.beqList_refl xs⟩

theorem YVal.beqDict_refl : ∀ xs : List (String × YVal), YVal.beqDict xs xs = true
  | [] => rfl
  | (k, x) :: xs => by
    simp only [YVal.beqDict, Bool.and_eq_true, beq_self_eq_true, true_and]
    exact ⟨YVal.beq_refl x, YVal.beqDict_refl xs⟩

end

theorem YVal.eq_of_beqList_of (n : Nat)
    (ih : ∀ a b : YVal, sizeOf a ≤ n → YVal.beq a b = true → a = b) :
    ∀ as bs : List YVal, (∀ x ∈ as, sizeOf x ≤ n) →
      YVal.beqList as bs = true → as = bs := by
  intro as
  induction as with
  | nil =>
    intro bs _ hb
    cases bs with
    | nil => rfl
    | cons b bs => simp [YVal.beqList] at hb
  | cons a as iha =>
    intro bs hmem hb
    cases bs with
    | nil => simp [YVal.beqList] at hb
    | cons b bs =>
      simp only [YVal.beqList, Bool.and_eq_true] at hb
      have h1 := ih a b (hmem a (by simp)) hb.1
      have h2 := iha bs (fun x hx => hmem x (by simp [hx])) hb.2
      rw [h1, h2]

theorem YVal.eq_of_beqDict_of (n : Nat)
    (ih : ∀ a b : YVal, sizeOf a ≤ n → YVal.beq a b = true → a = b) :
    ∀ as bs : List (String × YVal), (∀ x ∈ as, sizeOf x.2 ≤ n) →
      YVal.beqDict as bs = true → as = bs := by
  intro as
  induction as with
  | nil =>
    intro bs _ hb
    cases bs with
    | nil => rfl
    | cons b bs =>
      cases b
      simp [YVal.beqDict] at hb
  | cons a as iha =>
    intro bs hmem hb
    cases a with
    | mk k v =>
      cases bs with
      | nil => simp [YVal.beqDict] at hb
      | cons b bs =>
        cases b with
        | mk k' v' =>
          simp only [YVal.beqDict, Bool.and_eq_true, beq_iff_eq] at hb
          have h1 := ih v v' (hmem (k, v) (by simp)) hb.1.2
          have h2 := iha bs (fun x hx => hmem x (by simp [hx])) hb.2
          rw [hb.1.1, h1, h2]

theorem YVal.eq_of_beq_aux :
    ∀ n : Nat, ∀ a b : YVal, sizeOf a ≤ n → YVal.beq a b = true → a = b := by
  intro n
  induction n with
  | zero =>
    intro a b hs _
    exact absurd hs (by cases a <;> simp)
  | succ n ih =>
    intro a b hs hb
    cases a <;> cases b <;> simp only [YVal.beq] at hb <;> try simp at hb
    case s.s x y => rw [hb]
    case i.i x y => rw [hb]
    case b.b x y => rw [hb]
    case null.null => rfl
    case list.list as bs =>
      have hbound : ∀ x ∈ as, sizeOf x ≤ n := by
        intro x hx
        have h1 := List.sizeOf_lt_of_mem hx
        simp at hs
        omega
      rw [YVal.eq_of_beqList_of n ih as bs hbound hb]
    case dict.dict as bs =>
      have hbound : ∀ x ∈ as, sizeOf x.2 ≤ n := by
        intro x hx
        have h1 := List.sizeOf_lt_of_mem hx
        have h2 : sizeOf x.2 < sizeOf x := by
          cases x
          simp
        simp at hs
        omega
      rw [YVal.eq_of_beqDict_of n ih as bs hbound hb]

theorem YVal.eq_of_beq {a b : YVal} (h : YVal.beq a b = true) : a = b :=
  YVal.eq_of_beq_aux (sizeOf a) a b (Nat.le_refl _) h

instance : DecidableEq YVal := fun a b =>
  if h : YVal.beq a b = true then .isTrue (YVal.eq_of_beq h)
  else .isFalse (fun he => h (by rw [he]; exact YVal.beq_refl b))

/-- An untyped YAML document: what load_yaml returns for a mapping file. -/
abbrev Doc := List (String × YVal)

/-- Python dict lookup: value of the first entry with the given key. -/
def dictLookup (k : String) : Doc → Option YVal
  | [] => none
  | (k', v) :: rest => if k' = k then some v else dictLookup k rest

/-- Python dict key removal (dict.pop): drop every entry with the given key. -/
def dictErase (k : String) : Doc → Doc
  | [] => []
  | (k', v) :: rest =>
    if k' = k then dictErase k rest else (k', v) :: dictErase k rest

/-- Python dict assignment: replace the value at an existing key in place,
or append the pair at the end when the key is absent. -/
def dictSet (k : String) (v : YVal) : Doc → Doc
  | [] => [(k, v)]
  | (k', v') :: rest =>
    if k' = k then (k, v) :: rest else (k', v') :: dictSet k v rest

/-- Python equality between a YAML value and an integer literal, including
the bool-int identification of Python (True == 1, False == 0). -/
def pyEqInt (v : YVal) (n : Int) : Bool :=
  match v with
  | .i m => m == n
  | .b x => (if x then (1 : Int) else 0) == n
  | _ => false

/-- Python truthiness of a YAML value. -/
def yFalsy : YVal → Bool
  | .null => true
  | .s v => v.isEmpty
  | .i v => v == 0
  | .b v => !v
  | .list items => items.isEmpty
  | .dict entries => entries.isEmpty

/-- Errors raised while loading a configuration.  validationError models
marshmallow ValidationError; parseError models the ParseError the loader
wraps it into; unsupportedVersion models the click.ClickException raised
for an unknown version field; typeError models a Python TypeError raised
when a non-string api_url value reaches api_to_dashboard_url. -/
inductive ConfigError where
  | validationError (msg : String)
  | parseError (msg : String)
  | unsupportedVersion (version : YVal)
  | typeError (msg : String)
deriving DecidableEq

/-- The version number written by UserConfig.save. -/
def CURRENT_CONFIG_VERSION : Int := 2

/-- An ignored secret occurrence: a content hash and an optional human
label.  The source stores these as name/match dicts; `match` is a reserved
word in Lean so the field is called matchVal. -/
structure IgnoredMatch where
  name : String
  matchVal : String
deriving DecidableEq

/-- Holds all user-defined secret-specific settings.  Python sets are
modelled as Lean lists. -/
structure SecretConfig where
  show_secrets : Bool := false
  ignored_detectors : List String := []
  ignored_matches : List IgnoredMatch := []
  ignored_paths : List String := []
deriving DecidableEq

/-- Holds the iac config as defined in .gitguardian.yaml files. -/
structure IaCConfig where
  ignored_paths : List String := []
  ignored_policies : List String := []
  minimum_severity : String := "LOW"
deriving DecidableEq

/-- Holds all ggshield settings defined by the user in the .gitguardian.yaml
files.  Field order matches the dataclass declaration order; `instance` is a
reserved word in Lean so the field is called instance_. -/
structure UserConfig where
  iac : IaCConfig := {}
  instance_ : Option String := none
  exit_zero : Bool := false
  verbose : Bool := false
  allow_self_signed : Bool := false
  max_commits_for_hook : Int := 50
  secret : SecretConfig := {}
deriving DecidableEq

/-- The flat v1 .gitguardian.yaml shape, parse target of the legacy
migrator. -/
structure UserV1Config where
  instance_ : Option String := none
  all_policies : Bool := false
  exit_zero : Bool := false
  matches_ignore : List IgnoredMatch := []
  paths_ignore : List String := []
  verbose : Bool := false
  allow_self_signed : Bool := false
  max_commits_for_hook : Int := 50
  ignore_default_excludes : Bool := false
  show_secrets : Bool := false
  banlisted_detectors : List String := []
deriving DecidableEq

/-! ### Schema loading (modelled from the spec)

The marshmallow-generated schemas (UserConfigSchema, IaCConfigSchema,
UserV1ConfigSchema) are produced by marshmallow_dataclass in modules that
are not part of the shown slice.  The functions below are modelled from the
spec, section 4.3: strict field typing (wrong types fail with a
field-path-qualified validation error), missing fields fall back to the
dataclass defaults, unknown keys are rejected, and the version field is
special-cased by the caller, which strips it before validation. -/

/-- Modelled from the spec: strict parse of a boolean field. -/
def parseBool (path : String) : YVal → Except ConfigError Bool
  | .b v => .ok v
  | _ => .error (.validationError path)

/-- Modelled from the spec: strict parse of an integer field. -/
def parseInt (path : String) : YVal → Except ConfigError Int
  | .i v => .ok v
  | _ => .error (.validationError path)

/-- Modelled from the spec: strict parse of a string field. -/
def parseStr (path : String) : YVal → Except ConfigError String
  | .s v => .ok v
  | _ => .error (.validationError path)

/-- Modelled from the spec: strict parse of an optional string field; a
YAML null loads as None. -/
def parseOptStr (path : String) : YVal → Except ConfigError (Option String)
  | .null => .ok none
  | .s v => .ok (some v)
  | _ => .error (.validationError path)

/-- Modelled from the spec: strict parse of the items of a list-of-strings
field. -/
def parseStrItems (path : String) : List YVal → Except ConfigError (List String)
  | [] => .ok []
  | .s v :: rest => Except.map (fun tail => v :: tail) (parseStrItems path rest)
  | _ :: _ => .error (.validationError path)

/-- Modelled from the spec: strict parse of a list-of-strings field
(a Python Set[str] or List[str], dumped as a YAML sequence). -/
def parseStrList (path : String) : YVal → Except ConfigError (List String)
  | .list items => parseStrItems path items
  | _ => .error (.validationError path)

/-- The keys of an ignored-match entry. -/
def ignoredMatchKeys : List String := ["name", "match"]

/-- Modelled from the spec: strict parse of one IgnoredMatch entry; name is
an optional label defaulting to the empty string, match is required. -/
def parseIgnoredMatch (path : String) (v : YVal) : Except ConfigError IgnoredMatch :=
  match v with
  | .dict d =>
    if d.all (fun kv => ignoredMatchKeys.contains kv.fst) then
      match dictLookup "name" d, dictLookup "match" d with
      | some (.s n), some (.s m) => .ok ⟨n, m⟩
      | none, some (.s m) => .ok ⟨"", m⟩
      | _, _ => .error (.validationError path)
    else .error (.validationError path)
  | _ => .error (.validationError path)

/-- Modelled from the spec: strict parse of the items of an ignored-match
list field. -/
def parseMatchItems (path : String) : List YVal → Except ConfigError (List IgnoredMatch)
  | [] => .ok []
  | v :: rest =>
    match parseIgnoredMatch path v with
    | .ok m => Except.map (fun tail => m :: tail) (parseMatchItems path rest)
    | .error e => .error e

/-- Modelled from the spec: strict parse of a List[IgnoredMatch] field. -/
def parseMatchList (path : String) : YVal → Except ConfigError (List IgnoredMatch)
  | .list items => parseMatchItems path items
  | _ => .error (.validationError path)

/-- Modelled from the spec: a field that may be absent from the document;
absent fields fall back to the dataclass default. -/
def optField {α : Type} (d : Doc) (k : String) (parse : YVal → Except ConfigError α)
    (dflt : α) : Except ConfigError α :=
  match dictLookup k d with
  | none => .ok dflt
  | some v => parse v

/-- Declared fields of IaCConfig. -/
def iacConfigKeys : List String := ["ignored_paths", "ignored_policies", "minimum_severity"]

/-- Modelled from the spec: the marshmallow load of an iac sub-document. -/
def IaCConfigSchema.loadDoc (d : Doc) : Except ConfigError IaCConfig :=
  if d.all (fun kv => iacConfigKeys.contains kv.fst) then do
    let ip ← optField d "ignored_paths" (parseStrList "iac.ignored_paths") []
    let ipol ← optField d "ignored_policies" (parseStrList "iac.ignored_policies") []
    let ms ← optField d "minimum_severity" (parseStr "iac.minimum_severity") "LOW"
    .ok ⟨ip, ipol, ms⟩
  else .error (.validationError "iac: unknown field")

/-- Declared fields of SecretConfig. -/
def secretConfigKeys : List String :=
  ["show_secrets", "ignored_detectors", "ignored_matches", "ignored_paths"]

/-- Modelled from the spec: the marshmallow load of a secret sub-document. -/
def SecretConfigSchema.loadDoc (d : Doc) : Except ConfigError SecretConfig :=
  if d.all (fun kv => secretConfigKeys.contains kv.fst) then do
    let ss ← optField d "show_secrets" (parseBool "secret.show_secrets") false
    let idet ← optField d "ignored_detectors" (parseStrList "secret.ignored_detectors") []
    let im ← optField d "ignored_matches" (parseMatchList "secret.ignored_matches") []
    let ip ← optField d "ignored_paths" (parseStrList "secret.ignored_paths") []
    .ok ⟨ss, idet, im, ip⟩
  else .error (.validationError "secret: unknown field")

/-- Modelled from the spec: strict parse of the iac field value. -/
def parseIaCConfig (v : YVal) : Except ConfigError IaCConfig :=
  match v with
  | .dict d => IaCConfigSchema.loadDoc d
  | _ => .error (.validationError "iac")

/-- Modelled from the spec: strict parse of the secret field value. -/
def parseSecretConfig (v : YVal) : Except ConfigError SecretConfig :=
  match v with
  | .dict d => SecretConfigSchema.loadDoc d
  | _ => .error (.validationError "secret")

/-- Declared fields of UserConfig. -/
def userConfigKeys : List String :=
  ["iac", "instance", "exit_zero", "verbose", "allow_self_signed",
   "max_commits_for_hook", "secret"]

/-- Modelled from the spec: the marshmallow load of a current-version
document (the version key has already been stripped by the caller). -/
def UserConfigSchema.load (d : Doc) : Except ConfigError UserConfig :=
  if d.all (fun kv => userConfigKeys.contains kv.fst) then do
    let ia ← optField d "iac" parseIaCConfig {}
    let inst ← optField d "instance" (parseOptStr "instance") none
    let ez ← optField d "exit_zero" (parseBool "exit_zero") false
    let vb ← optField d "verbose" (parseBool "verbose") false
    let ssi ← optField d "allow_self_signed" (parseBool "allow_self_signed") false
    let mc ← optField d "max_commits_for_hook" (parseInt "max_commits_for_hook") 50
    let sec ← optField d "secret" parseSecretConfig {}
    .ok ⟨ia, inst, ez, vb, ssi, mc, sec⟩
  else .error (.validationError "unknown field")

/-- Declared fields of UserV1Config. -/
def userV1ConfigKeys : List String :=
  ["instance", "all_policies", "exit_zero", "matches_ignore", "paths_ignore",
   "verbose", "allow_self_signed", "max_commits_for_hook",
   "ignore_default_excludes", "show_secrets", "banlisted_detectors"]

/-- Modelled from the spec: the marshmallow load of a version-1 document
(strict typing as for the current version). -/
def UserV1ConfigSchema.load (d : Doc) : Except ConfigError UserV1Config :=
  if d.all (fun kv => userV1ConfigKeys.contains kv.fst) then do
    let inst ← optField d "instance" (parseOptStr "instance") none
    let ap ← optField d "all_policies" (parseBool "all_policies") false
    let ez ← optField d "exit_zero" (parseBool "exit_zero") false
    let mi ← optField d "matches_ignore" (parseMatchList "matches_ignore") []
    let pi_ ← optField d "paths_ignore" (parseStrList "paths_ignore") []
    let vb ← optField d "verbose" (parseBool "verbose") false
    let ssi ← optField d "allow_self_signed" (parseBool "allow_self_signed") false
    let mc ← optField d "max_commits_for_hook" (parseInt "max_commits_for_hook") 50
    let ide ← optField d "ignore_default_excludes" (parseBool "ignore_default_excludes") false
    let ss ← optField d "show_secrets" (parseBool "show_secrets") false
    let bd ← optField d "banlisted_detectors" (parseStrList "banlisted_detectors") []
    .ok ⟨inst, ap, ez, mi, pi_, vb, ssi, mc, ide, ss, bd⟩
  else .error (.validationError "unknown field")

/-! ### Schema dumping (modelled from the spec) -/

/-- Modelled from the spec: dump of an optional string (None becomes a YAML
null). -/
def dumpOptStr : Option String → YVal
  | none => .null
  | some v => .s v

/-- Modelled from the spec: dump of one IgnoredMatch entry. -/
def dumpIgnoredMatch (m : IgnoredMatch) : YVal :=
  .dict [("name", .s m.name), ("match", .s m.matchVal)]

/-- Modelled from the spec: marshmallow dump of an IaCConfig, in declared
field order. -/
def IaCConfigSchema.dump (c : IaCConfig) : Doc :=
  [("ignored_paths", .list (c.ignored_paths.map YVal.s)),
   ("ignored_policies", .list (c.ignored_policies.map YVal.s)),
   ("minimum_severity", .s c.minimum_severity)]

/-- Modelled from the spec: marshmallow dump of a SecretConfig, in declared
field order. -/
def SecretConfigSchema.dump (c : SecretConfig) : Doc :=
  [("show_secrets", .b c.show_secrets),
   ("ignored_detectors", .list (c.ignored_detectors.map YVal.s)),
   ("ignored_matches", .list (c.ignored_matches.map dumpIgnoredMatch)),
   ("ignored_paths", .list (c.ignored_paths.map YVal.s))]

/-- Modelled from the spec: marshmallow dump of a UserConfig, in declared
field order. -/
def UserConfigSchema.dump (c : UserConfig) : Doc :=
  [("iac", .dict (IaCConfigSchema.dump c.iac)),
   ("instance", dumpOptStr c.instance_),
   ("exit_zero", .b c.exit_zero),
   ("verbose", .b c.verbose),
   ("allow_self_signed", .b c.allow_self_signed),
   ("max_commits_for_hook", .i c.max_commits_for_hook),
   ("secret", .dict (SecretConfigSchema.dump c.secret))]

mutual

/-- Modelled from the spec, section 4.6: recursively remove from dct any
key/value pair whose value is structurally equal to the reference value at
the same path, recursing into nested mappings and dropping a mapping that
becomes empty after pruning. -/
def remove_common_dict_items : Doc → Doc → Doc
  | [], _ => []
  | (k, v) :: rest, ref =>
    pruneEntry k v (dictLookup k ref) ++ remove_common_dict_items rest ref

/-- One entry of the default-diff: the kept entries (none or one) for a key
whose value is v and whose reference value is refV. -/
def pruneEntry (k : String) (v : YVal) (refV : Option YVal) : Doc :=
  match v, refV with
  | .dict sub, some (.dict refSub) =>
    let pruned := remove_common_dict_items sub refSub
    if pruned.isEmpty then [] else [(k, .dict pruned)]
  | v', some r => if v' = r then [] else [(k, v')]
  | v', none => [(k, v')]

end

/-- The dump of a freshly constructed default UserConfig, as computed by
UserConfig.save via schema.dump(schema.load({})). -/
def default_document : Doc :=
  match UserConfigSchema.load [] with
  | .ok c => UserConfigSchema.dump c
  | .error _ => []

/-- The document UserConfig.save writes: the default-diff of the instance
dump, with version injected unconditionally (the YAML file write itself is
abstracted away). -/
def UserConfig.save (c : UserConfig) : Doc :=
  let dct := UserConfigSchema.dump c
  let default_dct := default_document
  let dct := remove_common_dict_items dct default_dct
  dictSet "version" (.i CURRENT_CONFIG_VERSION) dct

/-- Modelled from the spec, section 4.5: copy every declared field of the
loaded instance onto the accumulator, unconditionally, recursing into the
SecretConfig and IaCConfig sub-objects. -/
def update_from_other_instance (dst src : UserConfig) : UserConfig :=
  { dst with
    iac := { dst.iac with
      ignored_paths := src.iac.ignored_paths
      ignored_policies := src.iac.ignored_policies
      minimum_severity := src.iac.minimum_severity }
    instance_ := src.instance_
    exit_zero := src.exit_zero
    verbose := src.verbose
    allow_self_signed := src.allow_self_signed
    max_commits_for_hook := src.max_commits_for_hook
    secret := { dst.secret with
      show_secrets := src.secret.show_secrets
      ignored_detectors := src.secret.ignored_detectors
      ignored_matches := src.secret.ignored_matches
      ignored_paths := src.secret.ignored_paths } }

/-! ### The legacy migrator (UserV1Config.load_v1) -/

/-- Replace the first occurrence of the characters of "api." by the
characters of "dashboard.". -/
def replaceApiChars : List Char → List Char
  | [] => []
  | 'a' :: 'p' :: 'i' :: '.' :: rest => "dashboard.".data ++ rest
  | c :: rest => c :: replaceApiChars rest

/-- Modelled from the spec: convert an API endpoint URL into its
corresponding dashboard base URL (ggshield.core.utils.api_to_dashboard_url
is not part of the shown slice). -/
def api_to_dashboard_url (url : String) : String :=
  String.mk (replaceApiChars url.data)

/-- Rewrite a bare-string matches_ignore entry into a name/match mapping;
entries already shaped as mappings (or of any other type) pass through
unchanged. -/
def normalizeMatchEntry : YVal → YVal
  | .s v => .dict [("name", .s ""), ("match", .s v)]
  | v => v

/-- The v1 config format allowed a bare secret hash in matches_ignore; this
rewrites such entries in place.  A missing or falsy matches_ignore value is
left untouched.  (In the source a truthy non-list value would raise a
TypeError while iterating; such documents are rejected by the v1 schema
anyway and are outside every claim.) -/
def UserV1Config.update_matches_ignore (data : Doc) : Doc :=
  match dictLookup "matches_ignore" data with
  | none => data
  | some mi =>
    if yFalsy mi then data
    else
      match mi with
      | .list entries =>
        dictSet "matches_ignore" (.list (entries.map normalizeMatchEntry)) data
      | _ => data

/-- Construction of the v2 UserConfig from a validated UserV1Config
(the tail of UserV1Config.load_v1); iac is left at its default. -/
def UserV1Config.to_user_config (v1config : UserV1Config) : UserConfig :=
  let secret : SecretConfig :=
    { show_secrets := v1config.show_secrets
      ignored_detectors := v1config.banlisted_detectors
      ignored_matches := v1config.matches_ignore
      ignored_paths := v1config.paths_ignore }
  { instance_ := v1config.instance_
    exit_zero := v1config.exit_zero
    verbose := v1config.verbose
    allow_self_signed := v1config.allow_self_signed
    max_commits_for_hook := v1config.max_commits_for_hook
    secret := secret }

/-- The first step of UserV1Config.load_v1: pop the old api_url key and, if
no instance key is present, derive the instance from it; a non-string
api_url value would raise a TypeError inside api_to_dashboard_url. -/
def load_v1_apiurl_step (data : Doc) : Except ConfigError Doc :=
  match dictLookup "api_url" data with
  | none => Except.ok data
  | some api_url =>
    let data := dictErase "api_url" data
    if (dictLookup "instance" data).isSome then Except.ok data
    else
      match api_url with
      | .s u => Except.ok (dictSet "instance" (.s (api_to_dashboard_url u)) data)
      | _ => Except.error (.typeError "api_url")

/-- Takes a dict representing a v1 .gitguardian.yaml and returns a v2
config object.  Deprecation warnings (deprecated format, all_policies,
ignore_default_excludes, api_url) are ambient output in the source and are
not modelled. -/
def UserV1Config.load_v1 (data : Doc) : Except ConfigError UserConfig := do
  let data ← load_v1_apiurl_step data
  let data := UserV1Config.update_matches_ignore data
  let v1config ← UserV1ConfigSchema.load data
  .ok v1config.to_user_config

/-! ### Loading one file into the accumulator -/

/-- Re-raise a marshmallow ValidationError as a ParseError, as the
try/except in UserConfig._update_from_file does; every other outcome passes
through. -/
def wrapValidationError {α : Type} : Except ConfigError α → Except ConfigError α
  | .error (.validationError msg) => .error (.parseError msg)
  | other => other

/-- UserConfig._update_from_file: the data argument is the load_yaml result
for the file (none for a missing or empty file).  On success the returned
UserConfig is the updated accumulator; on error the accumulator is
untouched (the source mutates self only after the whole load succeeded). -/
def UserConfig.update_from_file (self : UserConfig) (data? : Option Doc) :
    Except ConfigError UserConfig :=
  let data : Doc :=
    match data? with
    | none => [("version", .i CURRENT_CONFIG_VERSION)]
    | some d => if d.isEmpty then [("version", .i CURRENT_CONFIG_VERSION)] else d
  let config_version := (dictLookup "version" data).getD (.i 1)
  let data := dictErase "version" data
  let obj : Except ConfigError UserConfig :=
    wrapValidationError
      (if pyEqInt config_version 2 then UserConfigSchema.load data
       else if pyEqInt config_version 1 then UserV1Config.load_v1 data
       else .error (.unsupportedVersion config_version))
  Except.map (fun o => update_from_other_instance self o) obj

/-! ### Multi-tier loading (UserConfig.load) -/

/-- The file system and discovery constants seen by UserConfig.load.
fileExists models os.path.exists; load_yaml models the YAML codec read
(returning none for a missing or empty file); the path lists model
GLOBAL_CONFIG_FILENAMES, LOCAL_CONFIG_PATHS and DEFAULT_LOCAL_CONFIG_PATH
from ggshield.core.constants, and appDirPath the configuration-home
directory used by get_global_path. -/
structure Env where
  fileExists : String → Bool
  load_yaml : String → Option Doc
  globalConfigFilenames : List String
  localConfigPaths : List String
  defaultLocalConfigPath : String
  appDirPath : String

/-- Modelled from the spec: resolve a global config filename against the
platform configuration-home directory. -/
def get_global_path (env : Env) (filename : String) : String :=
  env.appDirPath ++ "/" ++ filename

/-- The discovery path of UserConfig.load: global tier then local tier,
first existing file each, then the save-path fallback. -/
def loadDiscovery (env : Env) (user_config : UserConfig) (config_path : Option String) :
    Except ConfigError (UserConfig × String) := do
  let cfg1 ←
    match env.globalConfigFilenames.find? (fun f => env.fileExists (get_global_path env f)) with
    | some f => user_config.update_from_file (env.load_yaml (get_global_path env f))
    | none => Except.ok user_config
  match env.localConfigPaths.find? (fun p => env.fileExists p) with
  | some p => Except.map (fun c => (c, p)) (cfg1.update_from_file (env.load_yaml p))
  | none => Except.ok (cfg1, config_path.getD env.defaultLocalConfigPath)

/-- UserConfig.load: returns the loaded UserConfig and the path where
updates should be saved.  A truthy (non-None, non-empty) explicit path is
loaded directly; otherwise both discovery tiers run.  The Python truthiness
test means an empty-string path falls through to discovery. -/
def UserConfig.load (env : Env) (config_path : Option String) :
    Except ConfigError (UserConfig × String) :=
  let user_config : UserConfig := {}
  match config_path with
  | some p =>
    if p = "" then loadDiscovery env user_config config_path
    else Except.map (fun c => (c, p)) (user_config.update_from_file (env.load_yaml p))
  | none => loadDiscovery env user_config config_path

/-! ### SecretConfig.add_ignored_match -/

/-- The loop body of SecretConfig.add_ignored_match over the
ignored_matches list: the first entry with the same match hash adopts the
new name when its own name is empty and stops the scan; if no entry has the
hash, the secret is appended. -/
def addMatchGo (secret : IgnoredMatch) : List IgnoredMatch → List IgnoredMatch
  | [] => [secret]
  | m :: rest =>
    if m.matchVal = secret.matchVal then
      (if m.name = "" then { m with name := secret.name } else m) :: rest
    else m :: addMatchGo secret rest

/-- Add secret to ignored_matches. -/
def SecretConfig.add_ignored_match (self : SecretConfig) (secret : IgnoredMatch) :
    SecretConfig :=
  { self with ignored_matches := addMatchGo secret self.ignored_matches }

/-- What dictLookup returns on a pruned document, as a function of the
lookups in the original document and in the reference document (used to
characterize remove_common_dict_items key by key). -/
def pruneSpec (v? refV? : Option YVal) : Option YVal :=
  match v? with
  | none => none
  | some v =>
    match v, refV? with
    | .dict sub, some (.dict refSub) =>
      let pruned := remove_common_dict_items sub refSub
      if pruned.isEmpty then none else some (.dict pruned)
    | v', some r => if v' = r then none else some v'
    | v', none => some v'

/-- The pairwise invariant of a SecretConfig ignored_matches list: at most
one entry per distinct match hash. -/
def DistinctMatches (l : List IgnoredMatch) : Prop :=
  l.Pairwise (fun x y => x.matchVal ≠ y.matchVal)

/-! ## Theorems -/

theorem update_from_other_instance_eq (dst src : UserConfig) :
    update_from_other_instance dst src = src := rfl

theorem dictLookup_dictSet_self (k : String) (v : YVal) (d : Doc) :
    dictLookup k (dictSet k v d) = some v := by
  induction d with
  | nil => simp [dictSet, dictLookup]
  | cons kv rest ih =>
    obtain ⟨k', v'⟩ := kv
    by_cases h : k' = k
    · simp [dictSet, h, dictLookup]
    · simp [dictSet, h, dictLookup, ih]

theorem dictLookup_dictSet_ne (k k' : String) (v : YVal) (d : Doc) (hk : k' ≠ k) :
    dictLookup k (dictSet k' v d) = dictLookup k d := by
  induction d with
  | nil => simp [dictSet, dictLookup, hk]
  | cons kv rest ih =>
    obtain ⟨k'', v'⟩ := kv
    by_cases h : k'' = k'
    · simp [dictSet, h, dictLookup, hk]
    · simp [dictSet, h, dictLookup, ih]

theorem dictErase_dictSet (k : String) (v : YVal) (d : Doc) :
    dictErase k (dictSet k v d) = dictErase k d := by
  induction d with
  | nil => simp [dictSet, dictErase]
  | cons kv rest ih =>
    obtain ⟨k', v'⟩ := kv
    by_cases h : k' = k
    · simp [dictSet, h, dictErase]
    · simp [dictSet, h, dictErase, ih]

theorem dictErase_of_lookup_none (k : String) (d : Doc)
    (h : dictLookup k d = none) : dictErase k d = d := by
  induction d with
  | nil => rfl
  | cons kv rest ih =>
    obtain ⟨k', v'⟩ := kv
    by_cases hk : k' = k
    · simp [dictLookup, hk] at h
    · simp [dictLookup, hk] at h
      simp [dictErase, hk, ih h]

theorem dictLookup_dictErase_self (k : String) (d : Doc) :
    dictLookup k (dictErase k d) = none := by
  induction d with
  | nil => rfl
  | cons kv rest ih =>
    obtain ⟨k', v'⟩ := kv
    by_cases hk : k' = k
    · simp [dictErase, hk, ih]
    · simp [dictErase, hk, dictLookup, ih]

theorem dictLookup_dictErase_ne (k k' : String) (d : Doc) (hk : k' ≠ k) :
    dictLookup k (dictErase k' d) = dictLookup k d := by
  induction d with
  | nil => rfl
  | cons kv rest ih =>
    obtain ⟨k'', v'⟩ := kv
    by_cases h : k'' = k'
    · simp [dictErase, h, dictLookup, hk, ih]
    · by_cases h2 : k'' = k
      · simp [dictErase, h, dictLookup, h2, Ne.symm hk, ih]
      · simp [dictErase, h, dictLookup, h2, ih]

theorem dictSet_of_lookup_eq (k : String) (v : YVal) (d : Doc)
    (h : dictLookup k d = some v) : dictSet k v d = d := by
  induction d with
  | nil => simp [dictLookup] at h
  | cons kv rest ih =>
    obtain ⟨k', v'⟩ := kv
    by_cases hk : k' = k
    · simp [dictLookup, hk] at h
      simp [dictSet, hk, h]
    · simp [dictLookup, hk] at h
      simp [dictSet, hk, ih h]

/-- C2: merging copies every declared field of UserConfig (recursively into
SecretConfig and IaCConfig) from the loaded instance onto the accumulator
unconditionally, so after merging tier A then tier B the accumulator equals
B in every field; in particular set- and sequence-valued fields such as the
ignored paths are replaced entirely by the later tier, never unioned, and
when B sets a field A does not, the result is the value from B. -/
theorem c2_merge_later_tier_wins (acc A B : UserConfig) :
    update_from_other_instance (update_from_other_instance acc A) B = B ∧
    (update_from_other_instance (update_from_other_instance acc A) B).secret.ignored_paths
      = B.secret.ignored_paths ∧
    (update_from_other_instance (update_from_other_instance acc A) B).iac.ignored_paths
      = B.iac.ignored_paths :=
  ⟨update_from_other_instance_eq _ B, rfl, rfl⟩

/-- C4: saving a freshly constructed default UserConfig produces a document
whose only key is version with value 2; and for every config, save injects
version 2 into the pruned document unconditionally. -/
theorem c4_save_version (cfg : UserConfig) :
    UserConfig.save {} = [("version", .i 2)] ∧
    dictLookup "version" (UserConfig.save cfg) = some (.i 2) :=
  ⟨rfl, dictLookup_dictSet_self "version" (.i 2) _⟩

theorem addMatchGo_of_not_found (m : IgnoredMatch) (l : List IgnoredMatch)
    (h : ∀ e ∈ l, e.matchVal ≠ m.matchVal) : addMatchGo m l = l ++ [m] := by
  induction l with
  | nil => rfl
  | cons e rest ih =>
    have he : ¬(e.matchVal = m.matchVal) := h e (by simp)
    simp only [addMatchGo, he, if_false]
    rw [ih (fun x hx => h x (by simp [hx])), List.cons_append]

theorem addMatchGo_of_found (m : IgnoredMatch) (l1 : List IgnoredMatch)
    (e : IgnoredMatch) (l2 : List IgnoredMatch)
    (h1 : ∀ x ∈ l1, x.matchVal ≠ m.matchVal) (h2 : e.matchVal = m.matchVal) :
    addMatchGo m (l1 ++ e :: l2) =
      l1 ++ (if e.name = "" then { name := m.name, matchVal := e.matchVal } else e) :: l2 := by
  induction l1 with
  | nil =>
    simp only [List.nil_append, addMatchGo, h2, if_true]
  | cons x rest ih =>
    have hx : ¬(x.matchVal = m.matchVal) := h1 x (by simp)
    simp only [List.cons_append, addMatchGo, hx, if_false, List.append_eq]
    rw [ih (fun y hy => h1 y (by simp [hy]))]

theorem addMatchGo_mem_matchVal (m : IgnoredMatch) (l : List IgnoredMatch) :
    ∀ y ∈ addMatchGo m l, y.matchVal = m.matchVal ∨ y.matchVal ∈ l.map IgnoredMatch.matchVal := by
  induction l with
  | nil =>
    intro y hy
    simp [addMatchGo] at hy
    simp [hy]
  | cons e rest ih =>
    intro y hy
    by_cases he : e.matchVal = m.matchVal
    · simp only [addMatchGo, he, if_true] at hy
      rcases List.mem_cons.1 hy with h | h
      · by_cases hn : e.name = ""
        · simp [hn] at h
          simp [h, he]
        · simp [hn] at h
          simp [h, he]
      · right
        simp [List.mem_map]
        right
        exact ⟨y, h, rfl⟩
    · simp only [addMatchGo, he, if_false] at hy
      rcases List.mem_cons.1 hy with h | h
      · right
        simp [h]
      · rcases ih y h with h' | h'
        · left; exact h'
        · right; simp at h' ⊢; tauto

theorem addMatchGo_pairwise (m : IgnoredMatch) (l : List IgnoredMatch)
    (h : DistinctMatches l) : DistinctMatches (addMatchGo m l) := by
  induction l with
  | nil =>
    simp [addMatchGo, DistinctMatches]
  | cons e rest ih =>
    rw [DistinctMatches, List.pairwise_cons] at h
    by_cases he : e.matchVal = m.matchVal
    · simp only [addMatchGo, he, if_true]
      rw [DistinctMatches, List.pairwise_cons]
      constructor
      · intro y hy
        have hh := h.1 y hy
        by_cases hn : e.name = ""
        · rw [he] at hh
          simpa [hn] using hh
        · simpa [hn] using hh
      · exact h.2
    · simp only [addMatchGo, he, if_false]
      rw [DistinctMatches, List.pairwise_cons]
      constructor
      · intro y hy
        rcases addMatchGo_mem_matchVal m rest y hy with h' | h'
        · rw [h']; exact he
        · simp [List.mem_map] at h'
          obtain ⟨x, hx, hxy⟩ := h'
          rw [← hxy]
          exact h.1 x hx
      · exact ih h.2

/-- C3: add_ignored_match appends the secret when no existing entry has its
match hash; when the first entry with the hash has an empty name it adopts
the new name and nothing is appended; when it already has a non-empty name
the call changes nothing.  The at-most-one-entry-per-hash invariant is
preserved, and adding entries with the same hash and names empty then x, in
either order, leaves exactly one entry named x. -/
theorem c3_add_ignored_match (cfg : SecretConfig) (m : IgnoredMatch) :
    ((∀ e ∈ cfg.ignored_matches, e.matchVal ≠ m.matchVal) →
      (cfg.add_ignored_match m).ignored_matches = cfg.ignored_matches ++ [m]) ∧
    (∀ l1 e l2, cfg.ignored_matches = l1 ++ e :: l2 →
      (∀ x ∈ l1, x.matchVal ≠ m.matchVal) → e.matchVal = m.matchVal →
      (cfg.add_ignored_match m).ignored_matches =
        l1 ++ (if e.name = "" then { name := m.name, matchVal := e.matchVal } else e) :: l2) ∧
    (DistinctMatches cfg.ignored_matches →
      DistinctMatches (cfg.add_ignored_match m).ignored_matches) ∧
    ((({} : SecretConfig).add_ignored_match ⟨"", "h"⟩).add_ignored_match ⟨"x", "h"⟩
      = { ignored_matches := [⟨"x", "h"⟩] } ∧
     (({} : SecretConfig).add_ignored_match ⟨"x", "h"⟩).add_ignored_match ⟨"", "h"⟩
      = { ignored_matches := [⟨"x", "h"⟩] }) := by
  refine ⟨?_, ?_, ?_, rfl, rfl⟩
  · intro h
    exact addMatchGo_of_not_found m cfg.ignored_matches h
  · intro l1 e l2 hl h1 h2
    show addMatchGo m cfg.ignored_matches = _
    rw [hl]
    exact addMatchGo_of_found m l1 e l2 h1 h2
  · intro h
    exact addMatchGo_pairwise m cfg.ignored_matches h

/-- Witness for c3_add_ignored_match at a concrete configuration. -/
theorem c3_witness :
    (({ ignored_matches := [⟨"n", "g"⟩] } : SecretConfig).add_ignored_match
        ⟨"x", "h"⟩).ignored_matches = [⟨"n", "g"⟩, ⟨"x", "h"⟩] :=
  (c3_add_ignored_match { ignored_matches := [⟨"n", "g"⟩] } ⟨"x", "h"⟩).1
    (by intro e he; simp at he; simp [he])

/-- C7: loading a document whose version field is present and is neither 1
nor 2 (in the Python sense of equality, so that booleans count as their
integer values) fails with the fatal unsupported-version error; the pure
model returns a new accumulator only on success, so the accumulator passed
in is untouched by any failing load. -/
theorem c7_unsupported_version (acc : UserConfig) (d : Doc) (v : YVal)
    (hv : dictLookup "version" d = some v)
    (h1 : pyEqInt v 1 = false) (h2 : pyEqInt v 2 = false) :
    UserConfig.update_from_file acc (some d) = .error (.unsupportedVersion v) := by
  have hd : d.isEmpty = false := by
    cases d with
    | nil => simp [dictLookup] at hv
    | cons kv rest => rfl
  simp [UserConfig.update_from_file, hd, hv, h1, h2, wrapValidationError, Except.map]

/-- Witness for c7_unsupported_version at version 99. -/
theorem c7_witness :
    UserConfig.update_from_file {} (some [("version", .i 99)]) =
      .error (.unsupportedVersion (.i 99)) :=
  c7_unsupported_version {} [("version", .i 99)] (.i 99) rfl rfl rfl

/-- C10: a non-empty document that lacks a version key entirely is treated
as version 1 and routed through the legacy migrator (never through the
current-version validator, and never into the unsupported-version error),
while an empty file, modelled as an absent or empty document, loads as the
current version with all defaults. -/
theorem c10_no_version_is_v1 (acc : UserConfig) (d : Doc)
    (hne : d ≠ []) (hv : dictLookup "version" d = none) :
    UserConfig.update_from_file acc (some d) =
      Except.map (fun o => update_from_other_instance acc o)
        (wrapValidationError (UserV1Config.load_v1 d)) ∧
    UserConfig.update_from_file acc none = .ok {} ∧
    UserConfig.update_from_file acc (some []) = .ok {} := by
  refine ⟨?_, rfl, rfl⟩
  have hd : d.isEmpty = false := by
    cases d with
    | nil => exact absurd rfl hne
    | cons kv rest => rfl
  simp [UserConfig.update_from_file, hd, hv, dictErase_of_lookup_none _ _ hv, pyEqInt]

/-- Witness for c10_no_version_is_v1 at a one-field legacy document. -/
theorem c10_witness :
    UserConfig.update_from_file {} (some [("show_secrets", .b true)]) =
      Except.map (fun o => update_from_other_instance {} o)
        (wrapValidationError (UserV1Config.load_v1 [("show_secrets", .b true)])) :=
  (c10_no_version_is_v1 {} [("show_secrets", .b true)] (by simp) rfl).1

/-- C8 (amended): a non-empty explicit config path short-circuits both
discovery tiers: the result is a function of the explicit file alone and
the returned save path is the explicit path.  (The amendment excludes the
empty-string path, which Python treats as falsy and sends to discovery.) -/
theorem c8_explicit_path (env : Env) (p : String) (hp : p ≠ "") :
    UserConfig.load env (some p) =
      Except.map (fun c => (c, p)) (UserConfig.update_from_file {} (env.load_yaml p)) := by
  simp [UserConfig.load, hp]

/-- A file system with a config file at the second local discovery path and
nothing else. -/
def envC8 : Env :=
  { fileExists := fun p => p == "repo/.gitguardian.yaml"
    load_yaml := fun p =>
      if p == "repo/.gitguardian.yaml"
      then some [("version", .i 2), ("exit_zero", .b true)]
      else none
    globalConfigFilenames := [".gitguardian.yml", ".gitguardian.yaml"]
    localConfigPaths := ["repo/.gitguardian.yml", "repo/.gitguardian.yaml"]
    defaultLocalConfigPath := "repo/.gitguardian.yaml"
    appDirPath := "home/config" }

/-- C8 counterexample: with the empty string as the explicit path, load
falls through to discovery, reads the local tier file and returns its path,
so the claim as stated (for every supplied explicit path) is false. -/
theorem c8_counterexample :
    ¬(UserConfig.load envC8 (some "") =
        Except.map (fun c => (c, "")) (UserConfig.update_from_file {} (envC8.load_yaml ""))) := by
  intro h
  rw [show UserConfig.load envC8 (some "") =
      .ok ({ exit_zero := true }, "repo/.gitguardian.yaml") from rfl] at h
  rw [show Except.map (fun c => (c, ""))
      (UserConfig.update_from_file {} (envC8.load_yaml "")) = .ok ({}, "") from rfl] at h
  simp only [Except.ok.injEq, Prod.mk.injEq] at h
  exact absurd h.2 (by decide)

/-- Witness for c8_explicit_path at a path missing from the file system. -/
theorem c8_witness :
    UserConfig.load envC8 (some "other.yaml") =
      Except.map (fun c => (c, "other.yaml"))
        (UserConfig.update_from_file {} (envC8.load_yaml "other.yaml")) :=
  c8_explicit_path envC8 "other.yaml" (by decide)

/-- C6: the matches_ignore normalization rewrites every bare-string entry
into a name/match mapping with empty name, leaves mapping entries
unchanged, preserves the order and count of entries (it is a map over the
list), and leaves a document without the field untouched. -/
theorem c6_update_matches_ignore (data : Doc) :
    (∀ entries, dictLookup "matches_ignore" data = some (.list entries) →
      UserV1Config.update_matches_ignore data =
        dictSet "matches_ignore" (.list (entries.map normalizeMatchEntry)) data ∧
      (entries.map normalizeMatchEntry).length = entries.length) ∧
    (dictLookup "matches_ignore" data = none →
      UserV1Config.update_matches_ignore data = data) ∧
    (∀ v, normalizeMatchEntry (.s v) = .dict [("name", .s ""), ("match", .s v)]) ∧
    (∀ entries, normalizeMatchEntry (.dict entries) = .dict entries) := by
  refine ⟨?_, ?_, fun v => rfl, fun entries => rfl⟩
  · intro entries hv
    refine ⟨?_, by simp⟩
    by_cases hemp : entries = []
    · subst hemp
      simp only [UserV1Config.update_matches_ignore, hv, yFalsy, List.isEmpty_nil, if_true,
        List.map_nil]
      exact (dictSet_of_lookup_eq _ _ _ hv).symm
    · have h2 : entries.isEmpty = false := by
        cases entries with
        | nil => exact absurd rfl hemp
        | cons e rest => rfl
      simp [UserV1Config.update_matches_ignore, hv, yFalsy, h2]
  · intro hv
    simp [UserV1Config.update_matches_ignore, hv]

/-- Witness for c6_update_matches_ignore on a two-entry list. -/
theorem c6_witness :
    UserV1Config.update_matches_ignore
        [("matches_ignore", .list [.s "h", .dict [("name", .s "n"), ("match", .s "g")]])] =
      dictSet "matches_ignore"
        (.list ([YVal.s "h", .dict [("name", .s "n"), ("match", .s "g")]].map normalizeMatchEntry))
        [("matches_ignore", .list [.s "h", .dict [("name", .s "n"), ("match", .s "g")]])] :=
  ((c6_update_matches_ignore
      [("matches_ignore", .list [.s "h", .dict [("name", .s "n"), ("match", .s "g")]])]).1
    [YVal.s "h", .dict [("name", .s "n"), ("match", .s "g")]] rfl).1

/-- C9: the all_policies and ignore_default_excludes values of a validated
version-1 document have no effect on any field of the resulting UserConfig
(the construction never reads them), and the result of the legacy migrator
always carries a default IaCConfig. -/
theorem c9_v1_deprecated_ignored :
    (∀ (c : UserV1Config) (a ide : Bool),
      UserV1Config.to_user_config { c with all_policies := a, ignore_default_excludes := ide } =
        UserV1Config.to_user_config c) ∧
    (∀ (d : Doc) (cfg : UserConfig), UserV1Config.load_v1 d = .ok cfg → cfg.iac = {}) := by
  refine ⟨fun c a ide => rfl, ?_⟩
  intro d cfg h
  rw [UserV1Config.load_v1] at h
  cases hs : load_v1_apiurl_step d with
  | error e => rw [hs] at h; simp [bind, Except.bind] at h
  | ok data =>
    rw [hs] at h
    simp only [bind, Except.bind] at h
    cases hl : UserV1ConfigSchema.load (UserV1Config.update_matches_ignore data) with
    | error e => rw [hl] at h; simp at h
    | ok v1c =>
      rw [hl] at h
      simp only [Except.ok.injEq] at h
      rw [← h]
      rfl

/-- Witness for c9_v1_deprecated_ignored on a one-field legacy document. -/
theorem c9_witness : ({ instance_ := some "u" } : UserConfig).iac = {} :=
  c9_v1_deprecated_ignored.2 [("instance", YVal.s "u")] { instance_ := some "u" } rfl

theorem dictLookup_update_matches_ignore (k : String) (d : Doc) (hk : k ≠ "matches_ignore") :
    dictLookup k (UserV1Config.update_matches_ignore d) = dictLookup k d := by
  unfold UserV1Config.update_matches_ignore
  cases hmi : dictLookup "matches_ignore" d with
  | none => rfl
  | some mi =>
    by_cases hf : yFalsy mi
    · simp [hf]
    · cases mi <;> simp [hf, dictLookup_dictSet_ne k "matches_ignore" _ d (Ne.symm hk)]

theorem UserV1ConfigSchema.load_ok_instance (d : Doc) (c : UserV1Config)
    (h : UserV1ConfigSchema.load d = .ok c) :
    optField d "instance" (parseOptStr "instance") none = .ok c.instance_ := by
  unfold UserV1ConfigSchema.load at h
  split at h
  case isFalse => exact absurd h (by simp)
  case isTrue =>
    cases h1 : optField d "instance" (parseOptStr "instance") none with
    | error e => rw [h1] at h; simp [bind, Except.bind] at h
    | ok inst =>
      rw [h1] at h
      simp only [bind, Except.bind] at h
      cases h2 : optField d "all_policies" (parseBool "all_policies") false with
      | error e => rw [h2] at h; simp at h
      | ok x2 =>
        rw [h2] at h
        cases h3 : optField d "exit_zero" (parseBool "exit_zero") false with
        | error e => rw [h3] at h; simp at h
        | ok x3 =>
          rw [h3] at h
          cases h4 : optField d "matches_ignore" (parseMatchList "matches_ignore") [] with
          | error e => rw [h4] at h; simp at h
          | ok x4 =>
            rw [h4] at h
            cases h5 : optField d "paths_ignore" (parseStrList "paths_ignore") [] with
            | error e => rw [h5] at h; simp at h
            | ok x5 =>
              rw [h5] at h
              cases h6 : optField d "verbose" (parseBool "verbose") false with
              | error e => rw [h6] at h; simp at h
              | ok x6 =>
                rw [h6] at h
                cases h7 : optField d "allow_self_signed" (parseBool "allow_self_signed") false with
                | error e => rw [h7] at h; simp at h
                | ok x7 =>
                  rw [h7] at h
                  cases h8 : optField d "max_commits_for_hook" (parseInt "max_commits_for_hook") 50 with
                  | error e => rw [h8] at h; simp at h
                  | ok x8 =>
                    rw [h8] at h
                    cases h9 : optField d "ignore_default_excludes" (parseBool "ignore_default_excludes") false with
                    | error e => rw [h9] at h; simp at h
                    | ok x9 =>
                      rw [h9] at h
                      cases h10 : optField d "show_secrets" (parseBool "show_secrets") false with
                      | error e => rw [h10] at h; simp at h
                      | ok x10 =>
                        rw [h10] at h
                        cases h11 : optField d "banlisted_detectors" (parseStrList "banlisted_detectors") [] with
                        | error e => rw [h11] at h; simp at h
                        | ok x11 =>
                          rw [h11] at h
                          simp only [Except.ok.injEq] at h
                          rw [← h]

theorem load_v1_apiurl_step_derives (d : Doc) (u : String)
    (ha : dictLookup "api_url" d = some (.s u))
    (hi : dictLookup "instance" d = none) :
    load_v1_apiurl_step d =
      .ok (dictSet "instance" (.s (api_to_dashboard_url u)) (dictErase "api_url" d)) := by
  have hi' : dictLookup "instance" (dictErase "api_url" d) = none := by
    rw [dictLookup_dictErase_ne "instance" "api_url" d (by decide)]
    exact hi
  simp [load_v1_apiurl_step, ha, hi']

theorem load_v1_apiurl_step_instance_wins (d : Doc)
    (hi : (dictLookup "instance" d).isSome) :
    load_v1_apiurl_step d = .ok (dictErase "api_url" d) := by
  have hi' : (dictLookup "instance" (dictErase "api_url" d)).isSome := by
    rw [dictLookup_dictErase_ne "instance" "api_url" d (by decide)]
    exact hi
  unfold load_v1_apiurl_step
  cases ha : dictLookup "api_url" d with
  | none => rw [dictErase_of_lookup_none "api_url" d ha]
  | some a => simp [hi']

/-- The instance field of the migrated config, extracted from a successful
run of the whole v1 pipeline whose first step produced the document d2. -/
theorem load_v1_instance_of_step (d : Doc) (d2 : Doc) (cfg : UserConfig)
    (hs : load_v1_apiurl_step d = .ok d2)
    (h : UserV1Config.load_v1 d = .ok cfg) :
    optField (UserV1Config.update_matches_ignore d2) "instance" (parseOptStr "instance") none =
      .ok cfg.instance_ := by
  rw [UserV1Config.load_v1, hs] at h
  simp only [bind, Except.bind] at h
  cases hl : UserV1ConfigSchema.load (UserV1Config.update_matches_ignore d2) with
  | error e => rw [hl] at h; simp at h
  | ok v1c =>
    rw [hl] at h
    simp only [Except.ok.injEq] at h
    have := UserV1ConfigSchema.load_ok_instance _ _ hl
    rw [this, ← h]
    rfl

/-- C5: when a version-1 document has api_url and no instance, the migrated
UserConfig carries the dashboard URL derived from api_url as its instance;
when both keys are present, the document instance value wins and api_url is
discarded without any effect on the result; in particular the SaaS example
document migrates to the SaaS dashboard URL with one normalized ignored
match. -/
theorem c5_api_url_migration (d : Doc) :
    (∀ (u : String) (cfg : UserConfig),
      dictLookup "api_url" d = some (.s u) →
      dictLookup "instance" d = none →
      UserV1Config.load_v1 d = .ok cfg →
      cfg.instance_ = some (api_to_dashboard_url u)) ∧
    ((dictLookup "instance" d).isSome →
      UserV1Config.load_v1 d = UserV1Config.load_v1 (dictErase "api_url" d)) ∧
    (∀ (v : YVal) (cfg : UserConfig),
      dictLookup "instance" d = some v →
      UserV1Config.load_v1 d = .ok cfg →
      parseOptStr "instance" v = .ok cfg.instance_) ∧
    (UserV1Config.load_v1
        [("api_url", .s "https://api.gitguardian.com"),
         ("matches_ignore", .list [.s "deadbeef"])] =
      .ok { instance_ := some "https://dashboard.gitguardian.com",
            secret := { ignored_matches := [⟨"", "deadbeef"⟩] } }) := by
  refine ⟨?_, ?_, ?_, rfl⟩
  · intro u cfg ha hi h
    have hs := load_v1_apiurl_step_derives d u ha hi
    have hfield := load_v1_instance_of_step d _ cfg hs h
    rw [optField, dictLookup_update_matches_ignore "instance" _ (by decide),
      dictLookup_dictSet_self] at hfield
    simp only [parseOptStr, Except.ok.injEq] at hfield
    exact hfield.symm
  · intro hi
    have hs := load_v1_apiurl_step_instance_wins d hi
    have hs2 : load_v1_apiurl_step (dictErase "api_url" d) = .ok (dictErase "api_url" d) := by
      unfold load_v1_apiurl_step
      rw [dictLookup_dictErase_self "api_url" d]
    rw [UserV1Config.load_v1, UserV1Config.load_v1, hs, hs2]
  · intro v cfg hv h
    have hv2 : dictLookup "instance" (dictErase "api_url" d) = some v := by
      rw [dictLookup_dictErase_ne "instance" "api_url" d (by decide)]
      exact hv
    have hs := load_v1_apiurl_step_instance_wins d (by rw [hv]; rfl)
    have hfield := load_v1_instance_of_step d _ cfg hs h
    rw [optField, dictLookup_update_matches_ignore "instance" _ (by decide), hv2] at hfield
    exact hfield

/-- Witness for c5_api_url_migration at the SaaS example document. -/
theorem c5_witness :
    ({ instance_ := some "https://dashboard.gitguardian.com",
       secret := { ignored_matches := [⟨"", "deadbeef"⟩] } } : UserConfig).instance_ =
      some (api_to_dashboard_url "https://api.gitguardian.com") :=
  (c5_api_url_migration
      [("api_url", .s "https://api.gitguardian.com"),
       ("matches_ignore", .list [.s "deadbeef"])]).1
    "https://api.gitguardian.com" _ rfl rfl rfl

theorem pruneEntry_none (k : String) (v : YVal) : pruneEntry k v none = [(k, v)] := by
  cases v <;> rfl

theorem pruneSpec_none (v : YVal) : pruneSpec (some v) none = some v := by
  cases v <;> rfl

theorem pruneEntry_scalar (k : String) (v r : YVal)
    (hnd : ¬∃ sub refSub, v = .dict sub ∧ r = .dict refSub) :
    pruneEntry k v (some r) = if v = r then [] else [(k, v)] := by
  cases v <;> cases r
  case dict.dict sub refSub => exact absurd ⟨sub, refSub, rfl, rfl⟩ hnd
  all_goals simp [pruneEntry]

theorem pruneSpec_scalar (v r : YVal)
    (hnd : ¬∃ sub refSub, v = .dict sub ∧ r = .dict refSub) :
    pruneSpec (some v) (some r) = if v = r then none else some v := by
  cases v <;> cases r
  case dict.dict sub refSub => exact absurd ⟨sub, refSub, rfl, rfl⟩ hnd
  all_goals simp [pruneSpec]

theorem dictLookup_pruneEntry_ne (k k' : String) (v : YVal) (r : Option YVal)
    (tail : Doc) (h : k' ≠ k) :
    dictLookup k (pruneEntry k' v r ++ tail) = dictLookup k tail := by
  by_cases hdd : ∃ sub refSub, v = .dict sub ∧ r = some (.dict refSub)
  · obtain ⟨sub, refSub, rfl, rfl⟩ := hdd
    simp only [pruneEntry]
    split <;> simp [dictLookup, h]
  · rcases r with _ | rv
    · rw [pruneEntry_none]
      simp [dictLookup, h]
    · rw [pruneEntry_scalar k' v rv
        (fun ⟨s, rs, h1, h2⟩ => hdd ⟨s, rs, h1, by rw [h2]⟩)]
      split <;> simp [dictLookup, h]

theorem dictLookup_eq_none_of_not_mem (k : String) (d : Doc)
    (h : k ∉ d.map Prod.fst) : dictLookup k d = none := by
  induction d with
  | nil => rfl
  | cons kv rest ih =>
    obtain ⟨k', v⟩ := kv
    simp only [List.map_cons, List.mem_cons] at h
    push_neg at h
    simp [dictLookup, Ne.symm h.1, ih h.2]

/-- The key lemma of the default-diff serializer: looking a key up in the
pruned document is determined by the lookups in the original and reference
documents, provided the original document has no duplicate keys. -/
theorem dictLookup_prune (k : String) (d ref : Doc)
    (hd : (d.map Prod.fst).Nodup) :
    dictLookup k (remove_common_dict_items d ref) =
      pruneSpec (dictLookup k d) (dictLookup k ref) := by
  induction d with
  | nil => rfl
  | cons kv rest ih =>
    obtain ⟨k', v⟩ := kv
    simp only [List.map_cons, List.nodup_cons] at hd
    obtain ⟨hknotin, hd'⟩ := hd
    by_cases hk : k' = k
    · subst hk
      have hrest : dictLookup k' rest = none := dictLookup_eq_none_of_not_mem k' rest hknotin
      have hrestp : dictLookup k' (remove_common_dict_items rest ref) = none := by
        rw [ih hd', hrest]
        rfl
      simp only [remove_common_dict_items]
      rw [show dictLookup k' ((k', v) :: rest) = some v by simp [dictLookup]]
      by_cases hdd : ∃ sub refSub, v = .dict sub ∧ dictLookup k' ref = some (.dict refSub)
      · obtain ⟨sub, refSub, rfl, hr⟩ := hdd
        rw [hr]
        simp only [pruneEntry, pruneSpec]
        by_cases hemp : (remove_common_dict_items sub refSub).isEmpty
        · simp only [hemp, if_true, List.nil_append]
          exact hrestp
        · simp only [hemp, if_false]
          simp [dictLookup]
      · cases hr : dictLookup k' ref with
        | none =>
          rw [pruneEntry_none, pruneSpec_none]
          simp [dictLookup]
        | some rv =>
          have hnd : ¬∃ sub refSub, v = .dict sub ∧ rv = .dict refSub :=
            fun ⟨s, rs, h1, h2⟩ => hdd ⟨s, rs, h1, by rw [hr, h2]⟩
          rw [pruneEntry_scalar k' v rv hnd, pruneSpec_scalar v rv hnd]
          by_cases hv : v = rv
          · simp only [hv, if_true, List.nil_append]
            exact hrestp
          · simp only [hv, if_false]
            simp [dictLookup]
    · simp only [remove_common_dict_items]
      rw [dictLookup_pruneEntry_ne k k' v (dictLookup k' ref) _ hk]
      rw [ih hd']
      simp [dictLookup, hk]

theorem pruneEntry_all_keys (k : String) (v : YVal) (r : Option YVal) (P : String → Bool)
    (h : P k = true) : (pruneEntry k v r).all (fun kv => P kv.1) = true := by
  by_cases hdd : ∃ sub refSub, v = .dict sub ∧ r = some (.dict refSub)
  · obtain ⟨sub, refSub, rfl, rfl⟩ := hdd
    simp only [pruneEntry]
    split <;> simp [h]
  · rcases r with _ | rv
    · rw [pruneEntry_none]; simp [h]
    · rw [pruneEntry_scalar k v rv
        (fun ⟨s, rs, h1, h2⟩ => hdd ⟨s, rs, h1, by rw [h2]⟩)]
      split <;> simp [h]

theorem prune_all_keys (d ref : Doc) (P : String → Bool)
    (h : d.all (fun kv => P kv.1) = true) :
    (remove_common_dict_items d ref).all (fun kv => P kv.1) = true := by
  induction d with
  | nil => rfl
  | cons kv rest ih =>
    obtain ⟨k, v⟩ := kv
    simp only [List.all_cons, Bool.and_eq_true] at h
    simp only [remove_common_dict_items, List.all_append, Bool.and_eq_true]
    exact ⟨pruneEntry_all_keys k v _ P h.1, ih h.2⟩

theorem parseStrItems_round (p : String) (xs : List String) :
    parseStrItems p (xs.map YVal.s) = .ok xs := by
  induction xs with
  | nil => rfl
  | cons x rest ih => simp [parseStrItems, ih, Except.map]

theorem parseStrList_round (p : String) (xs : List String) :
    parseStrList p (.list (xs.map YVal.s)) = .ok xs := by
  simp [parseStrList, parseStrItems_round]

theorem parseIgnoredMatch_round (p : String) (m : IgnoredMatch) :
    parseIgnoredMatch p (dumpIgnoredMatch m) = .ok m := rfl

theorem parseMatchItems_round (p : String) (ms : List IgnoredMatch) :
    parseMatchItems p (ms.map dumpIgnoredMatch) = .ok ms := by
  induction ms with
  | nil => rfl
  | cons m rest ih => simp [parseMatchItems, parseIgnoredMatch_round, ih, Except.map]

theorem parseMatchList_round (p : String) (ms : List IgnoredMatch) :
    parseMatchList p (.list (ms.map dumpIgnoredMatch)) = .ok ms := by
  simp [parseMatchList, parseMatchItems_round]

theorem parseOptStr_round (p : String) (o : Option String) :
    parseOptStr p (dumpOptStr o) = .ok o := by
  cases o <;> rfl

theorem list_isEmpty_eq_nil {α : Type} (l : List α) (h : l.isEmpty = true) : l = [] := by
  cases l with
  | nil => rfl
  | cons x xs => simp at h

theorem dictSet_isEmpty (k : String) (v : YVal) (d : Doc) :
    (dictSet k v d).isEmpty = false := by
  cases d with
  | nil => rfl
  | cons kv rest =>
    obtain ⟨a, b⟩ := kv
    by_cases h : a = k <;> simp [dictSet, h]

theorem iacDump_nodup (c : IaCConfig) :
    ((IaCConfigSchema.dump c).map Prod.fst).Nodup := by
  rw [show (IaCConfigSchema.dump c).map Prod.fst = iacConfigKeys from rfl]
  decide

theorem secretDump_nodup (c : SecretConfig) :
    ((SecretConfigSchema.dump c).map Prod.fst).Nodup := by
  rw [show (SecretConfigSchema.dump c).map Prod.fst = secretConfigKeys from rfl]
  decide

theorem userDump_nodup (c : UserConfig) :
    ((UserConfigSchema.dump c).map Prod.fst).Nodup := by
  rw [show (UserConfigSchema.dump c).map Prod.fst = userConfigKeys from rfl]
  decide

/-- A pruned scalar field loads back to the original field value: if the
field was pruned it equalled the reference default, otherwise it is parsed
from its dump. -/
theorem optField_prune_scalar_field {α : Type} (d ref : Doc) (k : String)
    (parse : YVal → Except ConfigError α) (dflt x : α) (v rv : YVal)
    (hd : (d.map Prod.fst).Nodup)
    (h1 : dictLookup k d = some v) (h2 : dictLookup k ref = some rv)
    (hnd : ¬∃ sub refSub, v = .dict sub ∧ rv = .dict refSub)
    (hp : parse v = .ok x)
    (he : v = rv → Except.ok (ε := ConfigError) dflt = .ok x) :
    optField (remove_common_dict_items d ref) k parse dflt = .ok x := by
  unfold optField
  rw [dictLookup_prune k d ref hd, h1, h2, pruneSpec_scalar v rv hnd]
  by_cases hv : v = rv
  · simp only [hv, if_true]
    exact he hv
  · simp only [hv, if_false]
    exact hp

/-- A pruned mapping-valued field loads back to the original sub-config:
if the pruned sub-document is empty the whole field was default, otherwise
the pruned sub-document is parsed recursively. -/
theorem optField_prune_dict_field {α : Type} (d ref : Doc) (k : String)
    (parse : YVal → Except ConfigError α) (dflt x : α) (sub refSub : Doc)
    (hd : (d.map Prod.fst).Nodup)
    (h1 : dictLookup k d = some (.dict sub)) (h2 : dictLookup k ref = some (.dict refSub))
    (hp : parse (.dict (remove_common_dict_items sub refSub)) = .ok x)
    (he : remove_common_dict_items sub refSub = [] →
      Except.ok (ε := ConfigError) dflt = .ok x) :
    optField (remove_common_dict_items d ref) k parse dflt = .ok x := by
  unfold optField
  rw [dictLookup_prune k d ref hd, h1, h2]
  rw [show pruneSpec (some (.dict sub)) (some (.dict refSub)) =
      (if (remove_common_dict_items sub refSub).isEmpty then none
       else some (.dict (remove_common_dict_items sub refSub))) from rfl]
  by_cases hemp : (remove_common_dict_items sub refSub).isEmpty
  · simp only [hemp, if_true]
    exact he (list_isEmpty_eq_nil _ hemp)
  · simp only [hemp, Bool.false_eq_true, if_false]
    exact hp

/-- A field of a pruned-to-empty document equalled the reference value. -/
theorem prune_nil_field_eq (d ref : Doc) (k : String) (v rv : YVal)
    (hd : (d.map Prod.fst).Nodup)
    (hpr : remove_common_dict_items d ref = [])
    (h1 : dictLookup k d = some v) (h2 : dictLookup k ref = some rv)
    (hnd : ¬∃ sub refSub, v = .dict sub ∧ rv = .dict refSub) :
    v = rv := by
  have l := dictLookup_prune k d ref hd
  rw [hpr, h1, h2, pruneSpec_scalar v rv hnd] at l
  by_cases hv : v = rv
  · exact hv
  · rw [if_neg hv] at l
    exact absurd l (by simp [dictLookup])

theorem iac_load_prune (c : IaCConfig) :
    IaCConfigSchema.loadDoc
      (remove_common_dict_items (IaCConfigSchema.dump c) (IaCConfigSchema.dump {})) =
      .ok c := by
  have f1 : optField (remove_common_dict_items (IaCConfigSchema.dump c) (IaCConfigSchema.dump {}))
      "ignored_paths" (parseStrList "iac.ignored_paths") [] = .ok c.ignored_paths :=
    optField_prune_scalar_field _ _ _ _ _ _
      (.list (c.ignored_paths.map YVal.s)) (.list []) (iacDump_nodup c) rfl rfl
      (by rintro ⟨s, rs, hv, hr⟩; cases hv)
      (parseStrList_round _ _)
      (by intro h
          simp only [YVal.list.injEq, List.map_eq_nil_iff] at h
          rw [h])
  have f2 : optField (remove_common_dict_items (IaCConfigSchema.dump c) (IaCConfigSchema.dump {}))
      "ignored_policies" (parseStrList "iac.ignored_policies") [] = .ok c.ignored_policies :=
    optField_prune_scalar_field _ _ _ _ _ _
      (.list (c.ignored_policies.map YVal.s)) (.list []) (iacDump_nodup c) rfl rfl
      (by rintro ⟨s, rs, hv, hr⟩; cases hv)
      (parseStrList_round _ _)
      (by intro h
          simp only [YVal.list.injEq, List.map_eq_nil_iff] at h
          rw [h])
  have f3 : optField (remove_common_dict_items (IaCConfigSchema.dump c) (IaCConfigSchema.dump {}))
      "minimum_severity" (parseStr "iac.minimum_severity") "LOW" = .ok c.minimum_severity :=
    optField_prune_scalar_field _ _ _ _ _ _
      (.s c.minimum_severity) (.s "LOW") (iacDump_nodup c) rfl rfl
      (by rintro ⟨s, rs, hv, hr⟩; cases hv)
      rfl
      (by intro h
          simp only [YVal.s.injEq] at h
          rw [h])
  unfold IaCConfigSchema.loadDoc
  rw [if_pos (prune_all_keys (IaCConfigSchema.dump c) (IaCConfigSchema.dump {})
    (fun k => iacConfigKeys.contains k) rfl)]
  simp only [f1, f2, f3, bind, Except.bind]

theorem secret_load_prune (c : SecretConfig) :
    SecretConfigSchema.loadDoc
      (remove_common_dict_items (SecretConfigSchema.dump c) (SecretConfigSchema.dump {})) =
      .ok c := by
  have f1 : optField (remove_common_dict_items (SecretConfigSchema.dump c) (SecretConfigSchema.dump {}))
      "show_secrets" (parseBool "secret.show_secrets") false = .ok c.show_secrets :=
    optField_prune_scalar_field _ _ _ _ _ _
      (.b c.show_secrets) (.b false) (secretDump_nodup c) rfl rfl
      (by rintro ⟨s, rs, hv, hr⟩; cases hv)
      rfl
      (by intro h
          simp only [YVal.b.injEq] at h
          rw [h])
  have f2 : optField (remove_common_dict_items (SecretConfigSchema.dump c) (SecretConfigSchema.dump {}))
      "ignored_detectors" (parseStrList "secret.ignored_detectors") [] = .ok c.ignored_detectors :=
    optField_prune_scalar_field _ _ _ _ _ _
      (.list (c.ignored_detectors.map YVal.s)) (.list []) (secretDump_nodup c) rfl rfl
      (by rintro ⟨s, rs, hv, hr⟩; cases hv)
      (parseStrList_round _ _)
      (by intro h
          simp only [YVal.list.injEq, List.map_eq_nil_iff] at h
          rw [h])
  have f3 : optField (remove_common_dict_items (SecretConfigSchema.dump c) (SecretConfigSchema.dump {}))
      "ignored_matches" (parseMatchList "secret.ignored_matches") [] = .ok c.ignored_matches :=
    optField_prune_scalar_field _ _ _ _ _ _
      (.list (c.ignored_matches.map dumpIgnoredMatch)) (.list []) (secretDump_nodup c) rfl rfl
      (by rintro ⟨s, rs, hv, hr⟩; cases hv)
      (parseMatchList_round _ _)
      (by intro h
          simp only [YVal.list.injEq, List.map_eq_nil_iff] at h
          rw [h])
  have f4 : optField (remove_common_dict_items (SecretConfigSchema.dump c) (SecretConfigSchema.dump {}))
      "ignored_paths" (parseStrList "secret.ignored_paths") [] = .ok c.ignored_paths :=
    optField_prune_scalar_field _ _ _ _ _ _
      (.list (c.ignored_paths.map YVal.s)) (.list []) (secretDump_nodup c) rfl rfl
      (by rintro ⟨s, rs, hv, hr⟩; cases hv)
      (parseStrList_round _ _)
      (by intro h
          simp only [YVal.list.injEq, List.map_eq_nil_iff] at h
          rw [h])
  unfold SecretConfigSchema.loadDoc
  rw [if_pos (prune_all_keys (SecretConfigSchema.dump c) (SecretConfigSchema.dump {})
    (fun k => secretConfigKeys.contains k) rfl)]
  simp only [f1, f2, f3, f4, bind, Except.bind]

theorem iac_prune_nil (c : IaCConfig)
    (h : remove_common_dict_items (IaCConfigSchema.dump c) (IaCConfigSchema.dump {}) = []) :
    ({} : IaCConfig) = c := by
  obtain ⟨ip, ipol, ms⟩ := c
  have e1 : YVal.list (ip.map YVal.s) = .list [] :=
    prune_nil_field_eq _ _ "ignored_paths" _ _ (iacDump_nodup ⟨ip, ipol, ms⟩) h rfl rfl
      (by rintro ⟨s, rs, hv, hr⟩; cases hv)
  have e2 : YVal.list (ipol.map YVal.s) = .list [] :=
    prune_nil_field_eq _ _ "ignored_policies" _ _ (iacDump_nodup ⟨ip, ipol, ms⟩) h rfl rfl
      (by rintro ⟨s, rs, hv, hr⟩; cases hv)
  have e3 : YVal.s ms = .s "LOW" :=
    prune_nil_field_eq _ _ "minimum_severity" _ _ (iacDump_nodup ⟨ip, ipol, ms⟩) h rfl rfl
      (by rintro ⟨s, rs, hv, hr⟩; cases hv)
  simp only [YVal.list.injEq, YVal.s.injEq, List.map_eq_nil_iff] at e1 e2 e3
  rw [e1, e2, e3]

theorem secret_prune_nil (c : SecretConfig)
    (h : remove_common_dict_items (SecretConfigSchema.dump c) (SecretConfigSchema.dump {}) = []) :
    ({} : SecretConfig) = c := by
  obtain ⟨ss, idet, im, ip⟩ := c
  have e1 : YVal.b ss = .b false :=
    prune_nil_field_eq _ _ "show_secrets" _ _ (secretDump_nodup ⟨ss, idet, im, ip⟩) h rfl rfl
      (by rintro ⟨s, rs, hv, hr⟩; cases hv)
  have e2 : YVal.list (idet.map YVal.s) = .list [] :=
    prune_nil_field_eq _ _ "ignored_detectors" _ _ (secretDump_nodup ⟨ss, idet, im, ip⟩) h rfl rfl
      (by rintro ⟨s, rs, hv, hr⟩; cases hv)
  have e3 : YVal.list (im.map dumpIgnoredMatch) = .list [] :=
    prune_nil_field_eq _ _ "ignored_matches" _ _ (secretDump_nodup ⟨ss, idet, im, ip⟩) h rfl rfl
      (by rintro ⟨s, rs, hv, hr⟩; cases hv)
  have e4 : YVal.list (ip.map YVal.s) = .list [] :=
    prune_nil_field_eq _ _ "ignored_paths" _ _ (secretDump_nodup ⟨ss, idet, im, ip⟩) h rfl rfl
      (by rintro ⟨s, rs, hv, hr⟩; cases hv)
  simp only [YVal.list.injEq, YVal.b.injEq, List.map_eq_nil_iff] at e1 e2 e3 e4
  rw [e1, e2, e3, e4]

/-- The heart of the round-trip property: the marshmallow load of the
default-diff of a dump returns the dumped config unchanged. -/
theorem userconfig_load_prune (c : UserConfig) :
    UserConfigSchema.load
      (remove_common_dict_items (UserConfigSchema.dump c) (UserConfigSchema.dump {})) =
      .ok c := by
  have fiac : optField (remove_common_dict_items (UserConfigSchema.dump c) (UserConfigSchema.dump {}))
      "iac" parseIaCConfig {} = .ok c.iac :=
    optField_prune_dict_field _ _ _ _ _ _
      (IaCConfigSchema.dump c.iac) (IaCConfigSchema.dump {}) (userDump_nodup c) rfl rfl
      (iac_load_prune c.iac)
      (fun hnil => congrArg Except.ok (iac_prune_nil c.iac hnil))
  have finst : optField (remove_common_dict_items (UserConfigSchema.dump c) (UserConfigSchema.dump {}))
      "instance" (parseOptStr "instance") none = .ok c.instance_ :=
    optField_prune_scalar_field _ _ _ _ _ _
      (dumpOptStr c.instance_) .null (userDump_nodup c) rfl rfl
      (by rintro ⟨s, rs, hv, hr⟩; cases hr)
      (parseOptStr_round _ _)
      (by intro h
          cases hi : c.instance_ with
          | none => rfl
          | some s => rw [hi] at h; simp [dumpOptStr] at h)
  have fez : optField (remove_common_dict_items (UserConfigSchema.dump c) (UserConfigSchema.dump {}))
      "exit_zero" (parseBool "exit_zero") false = .ok c.exit_zero :=
    optField_prune_scalar_field _ _ _ _ _ _
      (.b c.exit_zero) (.b false) (userDump_nodup c) rfl rfl
      (by rintro ⟨s, rs, hv, hr⟩; cases hv)
      rfl
      (by intro h
          simp only [YVal.b.injEq] at h
          rw [h])
  have fvb : optField (remove_common_dict_items (UserConfigSchema.dump c) (UserConfigSchema.dump {}))
      "verbose" (parseBool "verbose") false = .ok c.verbose :=
    optField_prune_scalar_field _ _ _ _ _ _
      (.b c.verbose) (.b false) (userDump_nodup c) rfl rfl
      (by rintro ⟨s, rs, hv, hr⟩; cases hv)
      rfl
      (by intro h
          simp only [YVal.b.injEq] at h
          rw [h])
  have fssi : optField (remove_common_dict_items (UserConfigSchema.dump c) (UserConfigSchema.dump {}))
      "allow_self_signed" (parseBool "allow_self_signed") false = .ok c.allow_self_signed :=
    optField_prune_scalar_field _ _ _ _ _ _
      (.b c.allow_self_signed) (.b false) (userDump_nodup c) rfl rfl
      (by rintro ⟨s, rs, hv, hr⟩; cases hv)
      rfl
      (by intro h
          simp only [YVal.b.injEq] at h
          rw [h])
  have fmc : optField (remove_common_dict_items (UserConfigSchema.dump c) (UserConfigSchema.dump {}))
      "max_commits_for_hook" (parseInt "max_commits_for_hook") 50 = .ok c.max_commits_for_hook :=
    optField_prune_scalar_field _ _ _ _ _ _
      (.i c.max_commits_for_hook) (.i 50) (userDump_nodup c) rfl rfl
      (by rintro ⟨s, rs, hv, hr⟩; cases hv)
      rfl
      (by intro h
          simp only [YVal.i.injEq] at h
          rw [h])
  have fsec : optField (remove_common_dict_items (UserConfigSchema.dump c) (UserConfigSchema.dump {}))
      "secret" parseSecretConfig {} = .ok c.secret :=
    optField_prune_dict_field _ _ _ _ _ _
      (SecretConfigSchema.dump c.secret) (SecretConfigSchema.dump {}) (userDump_nodup c) rfl rfl
      (secret_load_prune c.secret)
      (fun hnil => congrArg Except.ok (secret_prune_nil c.secret hnil))
  unfold UserConfigSchema.load
  rw [if_pos (prune_all_keys (UserConfigSchema.dump c) (UserConfigSchema.dump {})
    (fun k => userConfigKeys.contains k) rfl)]
  simp only [fiac, finst, fez, fvb, fssi, fmc, fsec, bind, Except.bind]

/-- C1: validating a valid current-version document, saving the resulting
UserConfig through the default-diff serializer and validating the saved
document again yields the same UserConfig (the empty-collection-versus-
unset collapse happens at the document level and is invisible at the
UserConfig level, where the equality is exact). -/
theorem c1_validate_save_revalidate (D : Doc) (acc1 acc2 cfg : UserConfig) (ver : YVal)
    (hver : dictLookup "version" D = some ver)
    (hv2 : pyEqInt ver 2 = true)
    (hload : UserConfig.update_from_file acc1 (some D) = .ok cfg) :
    UserConfig.update_from_file acc2 (some (UserConfig.save cfg)) = .ok cfg := by
  have hsave : UserConfig.save cfg = dictSet "version" (.i 2)
      (remove_common_dict_items (UserConfigSchema.dump cfg) (UserConfigSchema.dump {})) := rfl
  have hne : (UserConfig.save cfg).isEmpty = false := by
    rw [hsave]
    exact dictSet_isEmpty _ _ _
  have hlook : dictLookup "version" (UserConfig.save cfg) = some (.i 2) := by
    rw [hsave]
    exact dictLookup_dictSet_self _ _ _
  have hprunedver : dictLookup "version"
      (remove_common_dict_items (UserConfigSchema.dump cfg) (UserConfigSchema.dump {})) = none := by
    rw [dictLookup_prune _ _ _ (userDump_nodup cfg)]
    rw [show dictLookup "version" (UserConfigSchema.dump cfg) = none from rfl]
    rfl
  have herase : dictErase "version" (UserConfig.save cfg) =
      remove_common_dict_items (UserConfigSchema.dump cfg) (UserConfigSchema.dump {}) := by
    rw [hsave, dictErase_dictSet]
    exact dictErase_of_lookup_none _ _ hprunedver
  simp only [UserConfig.update_from_file, hne, Bool.false_eq_true, if_false, hlook,
    Option.getD_some, herase, userconfig_load_prune cfg]
  rfl

/-- Witness for c1_validate_save_revalidate on a small verbose document. -/
theorem c1_witness :
    UserConfig.update_from_file {} (some (UserConfig.save { verbose := true })) =
      .ok { verbose := true } :=
  c1_validate_save_revalidate [("version", .i 2), ("verbose", .b true)] {} {}
    { verbose := true } (.i 2) rfl rfl rfl
